import Mathlib

/-!
Verification development for the auto-md CLI tool.

The repository automates generation of task documentation from Jira
issues: it fetches an issue, locates or creates a matching git branch,
drives an AI feedback loop producing a Markdown draft, persists the
draft, and optionally commits and pushes it.

This file gives a shallow embedding of the deterministic core of
`src/auto_md/config.py`, `src/auto_md/git_utils.py`,
`src/auto_md/ai_utils.py` and `src/auto_md/cli.py` (external effects —
subprocess runs, HTTP calls, the LLM backend, the file system — are
passed in as explicit values), and proves or refutes the specified
properties of branch resolution, the feedback loop, Markdown section
splitting, configuration initialization, persistence and publishing.
-/

namespace AutoMd

/-! ## Python string primitives

Python string operations used by the sources, modelled on `List Char`
(ASCII-faithful, which is what the code relies on for issue keys and
branch names). -/

/-- Python `s.startswith(pre)` on character lists. -/
def startsWithL : List Char → List Char → Bool
  | _, [] => true
  | [], _ :: _ => false
  | a :: as, b :: bs => a == b && startsWithL as bs

/-- Python `needle in hay` (substring containment) on character lists. -/
def containsL : List Char → List Char → Bool
  | [], needle => needle.isEmpty
  | c :: rest, needle => startsWithL (c :: rest) needle || containsL rest needle

/-- Python `s.startswith(pre)` for strings. -/
def startsWithPy (s pre : String) : Bool :=
  startsWithL s.toList pre.toList

/-- Python `needle in hay` for strings. -/
def pyInStr (needle hay : String) : Bool :=
  containsL hay.toList needle.toList

/-- Python `s.lower()` (ASCII case folding, as used on branch names). -/
def pyLower (s : String) : String :=
  ⟨s.toList.map Char.toLower⟩

/-- Whitespace test for Python `str.strip()`. -/
def isPySpace (c : Char) : Bool :=
  c == ' ' || c == '\t' || c == '\n' || c == '\r'

/-- Python `s.strip()`: drop whitespace from both ends. -/
def pyStrip (s : String) : String :=
  ⟨(((s.toList.dropWhile isPySpace).reverse.dropWhile isPySpace).reverse)⟩

/-- Python `s.split('\n')` on character lists; keeps empty pieces,
including a trailing one. -/
def splitOnNL : List Char → List (List Char)
  | [] => [[]]
  | c :: rest =>
    if c == '\n' then [] :: splitOnNL rest
    else
      match splitOnNL rest with
      | [] => [[c]]
      | l :: ls => (c :: l) :: ls

/-- Python `s.split('\n')` for strings. -/
def pySplitLines (s : String) : List String :=
  (splitOnNL s.toList).map (fun l => ⟨l⟩)

/-- Python `'\n'.join(parts)`. -/
def joinNL : List String → String
  | [] => ""
  | [s] => s
  | s :: rest => s ++ "\n" ++ joinNL rest

/-- Python `s[n:]` (drop the first `n` characters). -/
def pyDrop (s : String) (n : Nat) : String :=
  ⟨s.toList.drop n⟩

/-! ## config.py -/

/-- A JSON sub-object of string fields, as stored in `config.json`:
an association list from key to value. -/
abbrev ConfigDict : Type := List (String × String)

/-- Python `key in dict`. -/
def hasKey (d : ConfigDict) (k : String) : Bool :=
  d.any (fun p => p.1 == k)

/-- Python `dict.get(key)`: the value stored at `k`, if present. -/
def lookupVal (d : ConfigDict) (k : String) : Option String :=
  (d.find? (fun p => p.1 == k)).map Prod.snd

/-- The persisted configuration: top-level keys `git` and `jira`,
each a dictionary of string fields (`config.py`). -/
structure AppConfig where
  git : ConfigDict
  jira : ConfigDict

/-- Embeds `config.is_initialized`: `git` must have the keys `url`,
`username`, `password` and `jira` the keys `username`, `password`.
Only key presence is tested. -/
def isInitialized (c : AppConfig) : Bool :=
  (["url", "username", "password"].all (hasKey c.git)) &&
  (["username", "password"].all (hasKey c.jira))

/-- Modelled from the spec: "initialized" means all five fields are
present and non-empty (`config.is_initialized` per the specification,
which additionally demands non-emptiness of each value). -/
def specInitialized (c : AppConfig) : Bool :=
  (["url", "username", "password"].all
    (fun k => match lookupVal c.git k with
      | some v => !v.isEmpty
      | none => false)) &&
  (["username", "password"].all
    (fun k => match lookupVal c.jira k with
      | some v => !v.isEmpty
      | none => false))

/-! ## git_utils.py: branch search -/

/-- The match test of `git_utils.find_branch_for_issue`:
`issue_key.lower() in branch.lower()`. -/
def branchMatches (issue_key line : String) : Bool :=
  pyInStr (pyLower issue_key) (pyLower line)

/-- The list comprehension of `git_utils.find_branch_for_issue`:
keep the lines of `git branch -r` output containing the key
case-insensitively, stripped of surrounding whitespace, in listing
order. -/
def matchingBranches (lines : List String) (issue_key : String) : List String :=
  (lines.filter (branchMatches issue_key)).map pyStrip

/-- Embeds `git_utils.find_branch_for_issue` including its error path:
the `git branch -r` subprocess outcome is passed in as an `Except`
value (error payload: captured stderr). On success the stdout is
stripped, split into lines and filtered; on a `CalledProcessError`
the function returns the empty list. -/
def find_branch_for_issue (listing : Except String String) (issue_key : String) : List String :=
  match listing with
  | Except.error _ => []
  | Except.ok stdout => matchingBranches (pySplitLines (pyStrip stdout)) issue_key

/-! ## cli.py: branch resolution (run, steps 4 and 4b) -/

/-- The decision the `run` command reaches about which branch to use. -/
inductive BranchDecision where
  | checkout (branch : String)
  | chooseAmong (candidates : List String)
  | createNew (base : String)
deriving DecidableEq, Repr

/-- The hardcoded base branch of `cli.run` (`base_branch = "release"`). -/
def baseBranch : String := "release"

/-- The one/many/zero handling of `cli.run` on a candidate list:
one candidate is checked out, several are offered for a choice,
none leads to creating a new branch from the fixed base. -/
def decideBranches : List String → BranchDecision
  | [] => BranchDecision.createNew baseBranch
  | [b] => BranchDecision.checkout b
  | bs => BranchDecision.chooseAmong bs

/-- Embeds the branch-search sequence of `cli.run` (steps 4 and 4b)
over a parsed remote-branch listing: search for the primary issue key;
if that finds nothing and a parent key is available, search once more
with the parent key; then apply the one/many/zero handling. -/
def resolveBranch (lines : List String) (primary : String) (fallback : Option String) : BranchDecision :=
  let branches := matchingBranches lines primary
  let branches :=
    if branches.isEmpty then
      match fallback with
      | some fk => matchingBranches lines fk
      | none => branches
    else branches
  decideBranches branches

/-- The same branch-search sequence with the `git branch -r` outcome
passed in as an `Except` value, matching `find_branch_for_issue`'s
error path (a failed listing behaves as an empty listing). -/
def resolveBranchFrom (listing : Except String String) (primary : String)
    (fallback : Option String) : BranchDecision :=
  let branches := find_branch_for_issue listing primary
  let branches :=
    if branches.isEmpty then
      match fallback with
      | some fk => find_branch_for_issue listing fk
      | none => branches
    else branches
  decideBranches branches

/-- Embeds the index validation of `cli.run` after multiple branches
are found: `branch_idx` is accepted only when
`1 <= branch_idx <= len(branches)`, in which case
`branches[branch_idx - 1]` is checked out; anything else is the
invalid-choice error path (`none`). -/
def chooseBranch (candidates : List String) (idx : Int) : Option String :=
  if 1 ≤ idx ∧ idx ≤ (candidates.length : Int) then
    candidates[(idx - 1).toNat]?
  else none

/-! ## cli.py: feedback loop (run, step 6; same loop in ai_doc and
generate_doc) -/

/-- The role tag of a chat-history entry passed to the generator. -/
inductive Role where
  | human
  | assistant
deriving DecidableEq, Repr

/-- One entry of `chat_history`: a `(role, text)` pair. -/
abbrev ChatTurn : Type := Role × String

/-- The fixed text prepended to the user's feedback in the human turn
(`cli.run`: the f-string fed to `chat_history.append`). -/
def feedbackLead : String := "我对生成的文档有以下修改建议："

/-- The fixed synthetic assistant acknowledgment appended after each
rejection. -/
def ackText : String := "我会根据您的反馈重新生成文档。"

/-- The two turns appended to `chat_history` when a draft is rejected
with the given feedback text, in source order. -/
def rejectTurns (feedback : String) : List ChatTurn :=
  [(Role.human, feedbackLead ++ feedback), (Role.assistant, ackText)]

/-- A scripted user decision at the satisfaction prompt. -/
inductive UserDecision where
  | accept
  | reject (feedback : String)

/-- Embeds the `while True` feedback loop of `cli.run` as a function of
a scripted decision sequence: the result is the `chat_history` passed
to `generate_task_document` on the iteration in which the user accepts
(acceptance breaks out of the loop; each rejection appends the two
turns and loops). -/
def feedbackLoopHistory : List ChatTurn → List UserDecision → List ChatTurn
  | hist, [] => hist
  | hist, UserDecision.accept :: _ => hist
  | hist, UserDecision.reject fb :: rest =>
    feedbackLoopHistory (hist ++ rejectTurns fb) rest

/-! ## ai_utils.py: section splitting in generate_task_document -/

/-- One parsed section of the generated document (`ai_utils.Section`). -/
structure Section where
  title : String
  content : String
deriving DecidableEq, Repr

/-- The generated document object (`ai_utils.MarkdownDocument`):
`content` always holds the raw Markdown, `sections` the derived view. -/
structure MarkdownDocument where
  title : String
  sections : List Section
  content : String
deriving DecidableEq, Repr

/-- Embeds the line loop of `generate_task_document`: walk the lines,
opening a new section at each `# ` or `## ` heading (title stripped of
the marker and surrounding whitespace), accumulating other lines into
the current section's content, and saving the pending section at each
heading and at the end. -/
def parseLoop : List String → Option String → List String → List Section
  | [], curSection, curContent =>
    (match curSection with
     | some t => [Section.mk t (joinNL curContent)]
     | none => [])
  | line :: rest, curSection, curContent =>
    if startsWithPy line "# " then
      (match curSection with
       | some t => [Section.mk t (joinNL curContent)]
       | none => []) ++ parseLoop rest (some (pyStrip (pyDrop line 2))) []
    else if startsWithPy line "## " then
      (match curSection with
       | some t => [Section.mk t (joinNL curContent)]
       | none => []) ++ parseLoop rest (some (pyStrip (pyDrop line 3))) []
    else
      parseLoop rest curSection (curContent ++ [line])

/-- The sections extracted from the raw Markdown by
`generate_task_document`, including the fallback: when no heading was
found, a single default section titled `任务详情` holding the whole
text. -/
def parseSections (markdown_content : String) : List Section :=
  let sections := parseLoop (pySplitLines markdown_content) none []
  if sections.isEmpty then [Section.mk "任务详情" markdown_content]
  else sections

/-- Embeds the deterministic tail of `generate_task_document`: given
the Markdown text returned by the LLM backend (passed in as a value),
build the `MarkdownDocument` with the parsed sections, the title taken
from the first section (falling back to `key - summary` when there is
none), and the raw text as `content`. -/
def generate_task_document (issue_key summary markdown_content : String) : MarkdownDocument :=
  let sections := parseSections markdown_content
  let doc_title :=
    match sections with
    | s :: _ => s.title
    | [] => issue_key ++ " - " ++ summary
  MarkdownDocument.mk doc_title sections markdown_content

/-! ## ai_utils.py / cli.py: persistence -/

/-- A file system modelled as a map from path to file content. -/
abbrev FileSys : Type := String → Option String

/-- Writing a file: Python `open(path, "w").write(content)`,
unconditional overwrite. -/
def writeFile (fs : FileSys) (path content : String) : FileSys :=
  fun p => if p == path then some content else fs p

/-- Reading a file back. -/
def readFile (fs : FileSys) (path : String) : Option String :=
  fs path

/-- The target path used by `ai_utils.save_markdown_to_file` and by
`cli.run` step 6 inside the working copy: `docs/.tasks/{issue_key}.md`. -/
def taskDocPath (issue_key : String) : String :=
  "docs/.tasks/" ++ issue_key ++ ".md"

/-- Embeds `ai_utils.save_markdown_to_file`: write the Markdown
content verbatim to `docs/.tasks/{issue_key}.md` and return the
updated file system together with the path written. -/
def save_markdown_to_file (fs : FileSys) (issue_key markdown_content : String) :
    FileSys × String :=
  (writeFile fs (taskDocPath issue_key) markdown_content, taskDocPath issue_key)

/-! ## cli.py: publish sub-sequence (run, step 7) -/

/-- The commit message template of `cli.run` step 7
(`f-string docs: 添加{issue_key}任务文档`). -/
def commitMessage (issue_key : String) : String :=
  "docs: 添加" ++ issue_key ++ "任务文档"

/-- A publish step of `cli.run` step 7. -/
inductive PubStep where
  | stage
  | commit
  | push
deriving DecidableEq, Repr

/-- The outcomes of the three `subprocess.run(..., check=True)` calls,
passed in as values; an error payload is the captured stderr text. -/
structure PublishEnv where
  stageResult : Except String Unit
  commitResult : Except String Unit
  pushResult : Except String Unit

/-- What a publish run did: the steps actually executed, in order, and
the diagnostic surfaced by the `except` handler, if any. -/
structure PublishOutcome where
  executed : List PubStep
  errorMsg : Option String
deriving DecidableEq, Repr

/-- Embeds the `try` block of `cli.run` step 7: `git add`, then
`git commit`, then `git push`, each with `check=True`; the first
`CalledProcessError` aborts the block and its stderr is printed.
There is no rollback of earlier steps. -/
def publishRun (env : PublishEnv) : PublishOutcome :=
  match env.stageResult with
  | Except.error e => PublishOutcome.mk [PubStep.stage] (some e)
  | Except.ok _ =>
    match env.commitResult with
    | Except.error e => PublishOutcome.mk [PubStep.stage, PubStep.commit] (some e)
    | Except.ok _ =>
      match env.pushResult with
      | Except.error e =>
        PublishOutcome.mk [PubStep.stage, PubStep.commit, PubStep.push] (some e)
      | Except.ok _ =>
        PublishOutcome.mk [PubStep.stage, PubStep.commit, PubStep.push] none

/-! ## Helper lemmas -/

/-- Key presence as tested by `is_initialized` agrees with
definedness of the looked-up value. -/
theorem hasKey_isSome (d : ConfigDict) (k : String) :
    hasKey d k = (lookupVal d k).isSome := by
  induction d with
  | nil => rfl
  | cons p rest ih =>
    cases h : (p.1 == k) with
    | true => simp [hasKey, lookupVal, List.find?, h]
    | false => simpa [hasKey, lookupVal, List.find?, h] using ih

/-- A list starts with itself followed by anything. -/
theorem startsWithL_append (k post : List Char) :
    startsWithL (k ++ post) k = true := by
  induction k with
  | nil => cases post <;> rfl
  | cons a as ih => simp [startsWithL, ih]

/-- Every list contains the empty list. -/
theorem containsL_nil (hay : List Char) : containsL hay [] = true := by
  cases hay <;> simp [containsL, startsWithL, List.isEmpty]

/-- Containment is preserved by prepending characters. -/
theorem containsL_append_left (pre rest needle : List Char)
    (h : containsL rest needle = true) :
    containsL (pre ++ rest) needle = true := by
  induction pre with
  | nil => simpa using h
  | cons c p ih =>
    simp only [List.cons_append, containsL, Bool.or_eq_true]
    exact Or.inr ih

/-- A list contains any of its prefixes followed by anything. -/
theorem containsL_self_append (k post : List Char) :
    containsL (k ++ post) k = true := by
  cases k with
  | nil => simpa using containsL_nil post
  | cons a as =>
    simp only [List.cons_append, containsL, Bool.or_eq_true]
    exact Or.inl (startsWithL_append (a :: as) post)

/-- The line loop of `generate_task_document` produces no section when
no line carries a heading marker and no section is open. -/
theorem parseLoop_no_heading (lines : List String) :
    ∀ acc, (∀ l ∈ lines, startsWithPy l "# " = false ∧ startsWithPy l "## " = false) →
      parseLoop lines none acc = [] := by
  induction lines with
  | nil => intro acc _; rfl
  | cons l ls ih =>
    intro acc h
    have hl := h l (by simp)
    simp only [parseLoop, hl.1, hl.2, Bool.false_eq_true, if_false]
    exact ih _ (fun x hx => h x (by simp [hx]))

/-! ## Claims -/

/-- C5 counterexample: a persisted configuration whose `git.url` is
present but empty is reported as initialized by `is_initialized`,
while the specification-side predicate (all five fields present and
non-empty) rejects it. This refutes the claim that `is_initialized`
returns true only when every field is non-empty. -/
theorem claim_C5_cex :
    isInitialized
      (AppConfig.mk [("url", ""), ("username", "u"), ("password", "p")]
        [("username", "ju"), ("password", "jp")]) = true ∧
    lookupVal
      (AppConfig.mk [("url", ""), ("username", "u"), ("password", "p")]
        [("username", "ju"), ("password", "jp")]).git "url" = some "" ∧
    specInitialized
      (AppConfig.mk [("url", ""), ("username", "u"), ("password", "p")]
        [("username", "ju"), ("password", "jp")]) = false := by
  decide

/-- C5 (amended): `is_initialized` returns true if and only if all
five fields (git url, git username, git password, jira username, jira
password) are present; emptiness of the stored values is not checked,
so a present-but-empty field still counts as initialized. -/
theorem claim_C5 (c : AppConfig) :
    isInitialized c = true ↔
      ((lookupVal c.git "url").isSome = true ∧
       (lookupVal c.git "username").isSome = true ∧
       (lookupVal c.git "password").isSome = true ∧
       (lookupVal c.jira "username").isSome = true ∧
       (lookupVal c.jira "password").isSome = true) := by
  simp [isInitialized, hasKey_isSome, and_assoc]

/-- C5 instantiation: a configuration with all five keys present (one
of them empty) is initialized. -/
theorem claim_C5_inst :
    isInitialized
      (AppConfig.mk [("url", ""), ("username", "u"), ("password", "p")]
        [("username", "ju"), ("password", "jp")]) = true := by
  exact (claim_C5
      (AppConfig.mk [("url", ""), ("username", "u"), ("password", "p")]
        [("username", "ju"), ("password", "jp")])).mpr
    ⟨by decide, by decide, by decide, by decide, by decide⟩

/-- C6: branch matching selects exactly the listed lines that contain
the search key as a case-insensitive substring (each candidate is a
stripped matching line, every matching line contributes its stripped
form), the candidates appear in listing order (a sublist of the
stripped listing), and the match is insensitive to the case of the
search key. -/
theorem claim_C6 (lines : List String) (key : String) :
    (∀ b ∈ matchingBranches lines key,
        ∃ raw ∈ lines, pyStrip raw = b ∧ branchMatches key raw = true) ∧
    (∀ raw ∈ lines, branchMatches key raw = true →
        pyStrip raw ∈ matchingBranches lines key) ∧
    List.Sublist (matchingBranches lines key) (lines.map pyStrip) ∧
    (∀ key2 : String, pyLower key2 = pyLower key →
        matchingBranches lines key2 = matchingBranches lines key) := by
  refine ⟨?_, ?_, ?_, ?_⟩
  · intro b hb
    simp only [matchingBranches, List.mem_map, List.mem_filter] at hb
    obtain ⟨raw, ⟨hmem, hmatch⟩, heq⟩ := hb
    exact ⟨raw, hmem, heq, hmatch⟩
  · intro raw hr hm
    simp only [matchingBranches, List.mem_map, List.mem_filter]
    exact ⟨raw, ⟨hr, hm⟩, rfl⟩
  · exact List.Sublist.map pyStrip (List.filter_sublist lines)
  · intro key2 h
    have hfun : branchMatches key2 = branchMatches key := by
      funext line
      simp [branchMatches, h]
    simp [matchingBranches, hfun]

/-- C6 instantiation on a concrete listing: the padded listing line
matching the lower-cased key contributes its stripped name. -/
theorem claim_C6_inst :
    pyStrip "  origin/DTS-1 " ∈
      matchingBranches ["  origin/DTS-1 ", "  origin/main"] "dts-1" := by
  exact (claim_C6 ["  origin/DTS-1 ", "  origin/main"] "dts-1").2.1
    "  origin/DTS-1 " (by decide) (by decide)

/-- C9: persisting a draft's raw Markdown and reading the file back
yields identical content: `save_markdown_to_file` writes the content
verbatim to `docs/.tasks/{issue_key}.md`, and reading any written path
returns exactly what was written. -/
theorem claim_C9 (fs : FileSys) (issue_key markdown_content : String) :
    readFile (save_markdown_to_file fs issue_key markdown_content).1
        (save_markdown_to_file fs issue_key markdown_content).2 = some markdown_content ∧
    (save_markdown_to_file fs issue_key markdown_content).2 = taskDocPath issue_key ∧
    (∀ path : String,
        readFile (writeFile fs path markdown_content) path = some markdown_content) := by
  refine ⟨?_, rfl, ?_⟩
  · simp [save_markdown_to_file, readFile, writeFile]
  · intro path
    simp [readFile, writeFile]

/-- C10: a failing `git branch -r` makes `find_branch_for_issue`
return the empty candidate list (indistinguishable from zero matches),
and branch resolution over the failing listing takes the
create-new-branch path with the fixed base. -/
theorem claim_C10 (e : String) (primary : String) (fallback : Option String) :
    find_branch_for_issue (Except.error e) primary = [] ∧
    resolveBranchFrom (Except.error e) primary fallback =
      BranchDecision.createNew baseBranch := by
  refine ⟨rfl, ?_⟩
  cases fallback <;> simp [resolveBranchFrom, find_branch_for_issue, decideBranches]

/-- C1: branch resolution over any remote listing: exactly one
primary match is checked out; several matches are offered as the
choice set, with any out-of-range chosen index rejected (and any
in-range index accepted); zero primary matches with a fallback key
repeat the search once with the fallback key and nothing further
(resolution then equals a fallback-free resolution on that key); zero
matches overall create a new branch from the fixed base branch. -/
theorem claim_C1 (lines : List String) (primary : String) (fallback : Option String) :
    (∀ b, matchingBranches lines primary = [b] →
        resolveBranch lines primary fallback = BranchDecision.checkout b) ∧
    (1 < (matchingBranches lines primary).length →
        resolveBranch lines primary fallback =
          BranchDecision.chooseAmong (matchingBranches lines primary)) ∧
    (∀ (cs : List String) (idx : Int), idx < 1 ∨ (cs.length : Int) < idx →
        chooseBranch cs idx = none) ∧
    (∀ (cs : List String) (idx : Int), 1 ≤ idx → idx ≤ (cs.length : Int) →
        (chooseBranch cs idx).isSome = true) ∧
    (∀ fk, matchingBranches lines primary = [] →
        resolveBranch lines primary (some fk) = resolveBranch lines fk none) ∧
    (matchingBranches lines primary = [] → fallback = none →
        resolveBranch lines primary fallback = BranchDecision.createNew baseBranch) ∧
    (∀ fk, matchingBranches lines primary = [] → matchingBranches lines fk = [] →
        resolveBranch lines primary (some fk) = BranchDecision.createNew baseBranch) := by
  refine ⟨?_, ?_, ?_, ?_, ?_, ?_, ?_⟩
  · intro b h
    simp [resolveBranch, h, decideBranches]
  · intro h
    rcases hl : matchingBranches lines primary with _ | ⟨a, _ | ⟨b, rest⟩⟩
    · rw [hl] at h; simp at h
    · rw [hl] at h; simp at h
    · simp [resolveBranch, hl, decideBranches]
  · intro cs idx h
    simp only [chooseBranch]
    split_ifs with hc
    · exfalso; omega
    · rfl
  · intro cs idx h1 h2
    have hlt : (idx - 1).toNat < cs.length := by omega
    simp only [chooseBranch]
    rw [if_pos ⟨h1, h2⟩, List.getElem?_eq_getElem hlt]
    rfl
  · intro fk h
    simp [resolveBranch, h]
  · intro h hf
    subst hf
    simp [resolveBranch, h, decideBranches]
  · intro fk h hf
    simp [resolveBranch, h, hf, decideBranches]

/-- C1 instantiation: each branch-resolution case at a concrete
listing — unique match, multiple matches, out-of-range and in-range
choice indices, fallback reuse, and create-new when both searches come
up empty. -/
theorem claim_C1_inst :
    resolveBranch ["  origin/DTS-1", "  origin/main"] "dts-1" none =
      BranchDecision.checkout "origin/DTS-1" ∧
    resolveBranch ["  origin/K-2", "  origin/K-2-fix"] "K-2" none =
      BranchDecision.chooseAmong ["origin/K-2", "origin/K-2-fix"] ∧
    chooseBranch ["a", "b"] 3 = none ∧
    (chooseBranch ["a", "b"] 2).isSome = true ∧
    resolveBranch ["  origin/PAR-9"] "CH-1" (some "PAR-9") =
      BranchDecision.checkout "origin/PAR-9" ∧
    resolveBranch ["  origin/main"] "CH-1" (some "PAR-9") =
      BranchDecision.createNew baseBranch := by
  refine ⟨?_, ?_, ?_, ?_, ?_, ?_⟩
  · exact (claim_C1 ["  origin/DTS-1", "  origin/main"] "dts-1" none).1
      "origin/DTS-1" (by decide)
  · have h := (claim_C1 ["  origin/K-2", "  origin/K-2-fix"] "K-2" none).2.1 (by decide)
    rw [h]; decide
  · exact (claim_C1 [] "" none).2.2.1 ["a", "b"] 3 (by decide)
  · exact (claim_C1 [] "" none).2.2.2.1 ["a", "b"] 2 (by decide) (by decide)
  · have h := (claim_C1 ["  origin/PAR-9"] "CH-1" (some "PAR-9")).2.2.2.2.1
      "PAR-9" (by decide)
    rw [h]; decide
  · exact (claim_C1 ["  origin/main"] "CH-1" (some "PAR-9")).2.2.2.2.2.2
      "PAR-9" (by decide) (by decide)

/-- C2: every rejected draft appends exactly two turns to the
conversation — the human turn carrying the feedback, then the
synthetic assistant acknowledgment — so the history handed to the next
generation call is the previous history plus those two entries, and an
immediate acceptance leaves the (empty) conversation untouched. -/
theorem claim_C2 (hist : List ChatTurn) (fb : String) (rest : List UserDecision) :
    feedbackLoopHistory hist (UserDecision.reject fb :: rest) =
      feedbackLoopHistory
        (hist ++ [(Role.human, feedbackLead ++ fb), (Role.assistant, ackText)]) rest ∧
    (hist ++ rejectTurns fb).length = hist.length + 2 ∧
    feedbackLoopHistory hist (UserDecision.accept :: rest) = hist ∧
    feedbackLoopHistory [] [UserDecision.accept] = ([] : List ChatTurn) := by
  refine ⟨rfl, ?_, rfl, rfl⟩
  simp [rejectTurns]

/-- C3 counterexample: on the spec's own example input the parser does
not produce the claimed two sections — the top-level heading opens a
section of its own and section A's content carries no trailing
newline. -/
theorem claim_C3_cex :
    ¬ ((generate_task_document "DTS-6038" "S" "# Title\n## A\nfoo\n## B\nbar\n").sections =
        [Section.mk "A" "foo\n", Section.mk "B" "bar\n"]) := by
  decide

/-- C3 (amended): for the input `# Title`, `## A`, `foo`, `## B`,
`bar` (newline-terminated) the parser produces exactly the three
sections Title (empty content, the top-level heading's own section,
closed by the next heading), A with content `foo` (no trailing
newline), and B with content `bar` plus the trailing newline; the
document title is taken from the first parsed section's title, here
`Title` — stated generally in the last conjunct. -/
theorem claim_C3 :
    (generate_task_document "DTS-6038" "S" "# Title\n## A\nfoo\n## B\nbar\n").sections =
      [Section.mk "Title" "", Section.mk "A" "foo", Section.mk "B" "bar\n"] ∧
    (generate_task_document "DTS-6038" "S" "# Title\n## A\nfoo\n## B\nbar\n").title =
      "Title" ∧
    (∀ issue_key summary md s rest, parseSections md = s :: rest →
        (generate_task_document issue_key summary md).title = s.title) := by
  refine ⟨by decide, by decide, ?_⟩
  intro issue_key summary md s rest h
  simp [generate_task_document, h]

/-- C3 instantiation: the general title rule applied to a concrete
single-section document. -/
theorem claim_C3_inst :
    (generate_task_document "K" "Sum" "## X\ny").title = (Section.mk "X" "y").title := by
  exact claim_C3.2.2 "K" "Sum" "## X\ny" (Section.mk "X" "y") [] (by decide)

/-- C4: in the publish sub-sequence, when the stage step succeeded and
the commit step fails, exactly stage and commit were executed — the
push is never attempted — the commit's diagnostic text is the surfaced
error, and the already-executed stage step remains executed (the
embedded `try` block has no rollback action at all). -/
theorem claim_C4 (env : PublishEnv) (e : String)
    (hs : env.stageResult = Except.ok ()) (hc : env.commitResult = Except.error e) :
    (publishRun env).executed = [PubStep.stage, PubStep.commit] ∧
    PubStep.push ∉ (publishRun env).executed ∧
    (publishRun env).errorMsg = some e ∧
    PubStep.stage ∈ (publishRun env).executed := by
  rcases env with ⟨sr, cr, pr⟩
  dsimp at hs hc
  subst hs
  subst hc
  refine ⟨rfl, by simp [publishRun], rfl, by simp [publishRun]⟩

/-- C4 instantiation at a concrete environment whose commit fails. -/
theorem claim_C4_inst :
    (publishRun
        (PublishEnv.mk (Except.ok ()) (Except.error "commit failed") (Except.ok ()))).executed =
      [PubStep.stage, PubStep.commit] ∧
    PubStep.push ∉
      (publishRun
        (PublishEnv.mk (Except.ok ()) (Except.error "commit failed") (Except.ok ()))).executed ∧
    (publishRun
        (PublishEnv.mk (Except.ok ()) (Except.error "commit failed") (Except.ok ()))).errorMsg =
      some "commit failed" ∧
    PubStep.stage ∈
      (publishRun
        (PublishEnv.mk (Except.ok ()) (Except.error "commit failed") (Except.ok ()))).executed := by
  exact claim_C4
    (PublishEnv.mk (Except.ok ()) (Except.error "commit failed") (Except.ok ()))
    "commit failed" rfl rfl

/-- C7 counterexample: a heading-free text yields one section, but its
title is the Chinese literal of the source, not the English rendering
claimed. -/
theorem claim_C7_cex :
    (∀ l ∈ pySplitLines "plain text line",
        startsWithPy l "# " = false ∧ startsWithPy l "## " = false) ∧
    ¬ ((generate_task_document "K" "S" "plain text line").sections =
        [Section.mk "Task Details" "plain text line"]) := by
  decide

/-- C7 (amended): for every generated Markdown text with no level-1 or
level-2 heading line, the document consists of exactly one section
whose title is the source's default literal `任务详情` and whose
content is the whole text, and that title is also the document
title. -/
theorem claim_C7 (issue_key summary markdown_content : String)
    (h : ∀ l ∈ pySplitLines markdown_content,
        startsWithPy l "# " = false ∧ startsWithPy l "## " = false) :
    (generate_task_document issue_key summary markdown_content).sections =
      [Section.mk "任务详情" markdown_content] ∧
    (generate_task_document issue_key summary markdown_content).title = "任务详情" := by
  have hp := parseLoop_no_heading (pySplitLines markdown_content) [] h
  constructor
  · simp [generate_task_document, parseSections, hp]
  · simp [generate_task_document, parseSections, hp]

/-- C7 instantiation on a concrete two-line heading-free text. -/
theorem claim_C7_inst :
    (generate_task_document "DTS-1" "S" "hello\nworld").sections =
      [Section.mk "任务详情" "hello\nworld"] ∧
    (generate_task_document "DTS-1" "S" "hello\nworld").title = "任务详情" := by
  exact claim_C7 "DTS-1" "S" "hello\nworld" (by decide)

/-- C8 counterexample: the commit message built for a concrete issue
key is not the English template claimed by the spec. -/
theorem claim_C8_cex :
    commitMessage "DTS-6038" ≠ "docs: add DTS-6038 task document" := by
  decide

/-- C8 (amended): for every issue key, the commit message used by the
publish step equals the source's fixed template — the Chinese literal
`docs: 添加{issue_key}任务文档` — instantiated with that key, and in
particular contains the key as a substring. -/
theorem claim_C8 (issue_key : String) :
    commitMessage issue_key = "docs: 添加" ++ issue_key ++ "任务文档" ∧
    pyInStr issue_key (commitMessage issue_key) = true := by
  refine ⟨rfl, ?_⟩
  have hdata : (commitMessage issue_key).toList =
      "docs: 添加".toList ++ (issue_key.toList ++ "任务文档".toList) := by
    simp [commitMessage, String.toList, String.data_append]
  simp only [pyInStr, hdata]
  exact containsL_append_left _ _ _ (containsL_self_append _ _)

end AutoMd
